import Mathlib

/-
Verification of the virt-platform-autopilot reconciliation engine.

The Go sources are shallowly embedded: Go strings become lists of
characters, Go maps (which may be nil) become Option-wrapped association
lists, fallible functions return Option or Except, and the Kubernetes
client is modelled by passing the outcome of each API call as an explicit
argument. Every definition below is translated from the corresponding
Go function named in its comment.
-/

/-- Go strings, embedded as lists of characters. Go indexes strings by
byte; all string constants in the embedded code are ASCII, so character
count and byte count coincide. -/
abbrev GoString := List Char

/-- Convert a Lean string literal to the embedded Go-string form. -/
def gs (s : String) : GoString := s.data

/-- Models unicode.IsSpace as used by strings.TrimSpace. The embedded
form covers the ASCII whitespace characters, which are the only ones
appearing in the sources and manifests. -/
def goIsSpace (c : Char) : Bool := c.isWhitespace

/-- Models strings.TrimSpace: drop whitespace from both ends. -/
def goTrim (s : GoString) : GoString :=
  ((s.dropWhile goIsSpace).reverse.dropWhile goIsSpace).reverse

/-- Models strings.Split(s, sep) for a one-character separator.
Go semantics: Split("", ",") = [""], Split("a,b", ",") = ["a", "b"]. -/
def splitOnCharAux (sep : Char) : GoString → GoString → List GoString
  | [], acc => [acc.reverse]
  | c :: cs, acc =>
    if c = sep then acc.reverse :: splitOnCharAux sep cs []
    else splitOnCharAux sep cs (c :: acc)

/-- Models strings.Split(s, sep) for a one-character separator. -/
def splitOnChar (sep : Char) (s : GoString) : List GoString :=
  splitOnCharAux sep s []

/-- Go map read m[k] with a possibly-nil map m (a nil map yields the zero
value, the empty string, as does a missing key). -/
def mapGetD (m : Option (List (GoString × GoString))) (k : GoString) : GoString :=
  match m with
  | none => []
  | some mm => (mm.lookup k).getD []

/-- Go two-valued map read: some v when the (non-nil) map holds key k. -/
def mapLookup (m : Option (List (GoString × GoString))) (k : GoString) : Option GoString :=
  match m with
  | none => none
  | some mm => mm.lookup k

/-- Go presence test: _, ok := m[k] on a possibly-nil map. -/
def mapHasKey (m : Option (List (GoString × GoString))) (k : GoString) : Bool :=
  (mapLookup m k).isSome

/-- Embedded form of unstructured.Unstructured: the object header plus
the two metadata maps the engine consults. Go GetLabels and
GetAnnotations return nil when the map is unset, hence the Option. The
Go field Namespace is called nspace here. -/
structure Unstructured where
  apiVersion : GoString := []
  kind : GoString := []
  name : GoString := []
  nspace : GoString := []
  labels : Option (List (GoString × GoString)) := none
  annotations : Option (List (GoString × GoString)) := none
deriving DecidableEq

/-- Constant TombstoneLabel from pkg/assets (tombstone loader). -/
def TombstoneLabel : GoString := gs "platform.kubevirt.io/managed-by"

/-- Constant TombstoneLabelValue from pkg/assets (tombstone loader). -/
def TombstoneLabelValue : GoString := gs "virt-platform-autopilot"

/-- Constant AnnotationAutopilotEnabled from pkg/overrides. -/
def AnnotationAutopilotEnabled : GoString := gs "platform.kubevirt.io/autopilot"

/-- Constant DisabledResourcesAnnotation from pkg/engine/exclusion.go. -/
def DisabledResourcesAnnotation : GoString := gs "platform.kubevirt.io/disabled-resources"

/-- Modelled from the spec: the constant PatchAnnotation of pkg/overrides
is referenced but not defined in the available sources; the spec and the
project TODO give its value platform.kubevirt.io/patch. Only its identity
as a map key matters to the embedded functions. -/
def PatchAnnotation : GoString := gs "platform.kubevirt.io/patch"

/-- Function IsAutopilotEnabled from pkg/overrides: nil HCO or nil
annotation map yield false, otherwise the autopilot annotation must
equal the string true. -/
def IsAutopilotEnabled (hco : Option Unstructured) : Bool :=
  match hco with
  | none => false
  | some h =>
    match h.annotations with
    | none => false
    | some anns => decide (((anns.lookup AnnotationAutopilotEnabled).getD []) = gs "true")

/-- C4: IsAutopilotEnabled returns true exactly when the HCO is non-nil
and its autopilot annotation map is present and maps
platform.kubevirt.io/autopilot to the string true; a nil HCO, a missing
annotations map, an absent annotation, or any other value gives false. -/
theorem isAutopilotEnabled_spec (hco : Option Unstructured) :
    IsAutopilotEnabled hco = true ↔
      ∃ h anns, hco = some h ∧ h.annotations = some anns ∧
        (anns.lookup AnnotationAutopilotEnabled).getD [] = gs "true" := by
  cases hco with
  | none => simp [IsAutopilotEnabled]
  | some h =>
    cases hAnn : h.annotations with
    | none => simp [IsAutopilotEnabled, hAnn]
    | some anns => simp [IsAutopilotEnabled, hAnn]

/-- Function ParseDisabledResources from pkg/engine/exclusion.go: split
the annotation on commas, trim whitespace, and keep the nonempty
entries. The Go map from entry to true is represented by the list of its
keys; membership in the list is membership in the map. -/
def ParseDisabledResources ( annotation : GoString) : List GoString :=
  if annotation = [] then []
  else ((splitOnChar ',' annotation).map goTrim).filter (fun s => !s.isEmpty)

/-- Function IsResourceExcluded from pkg/engine/exclusion.go: an empty
map excludes nothing, otherwise look up the key kind/name. -/
def IsResourceExcluded (kind name : GoString) (disabledMap : List GoString) : Bool :=
  if disabledMap.isEmpty then false
  else decide ((kind ++ gs "/" ++ name) ∈ disabledMap)

/-- C2: IsResourceExcluded is true exactly when kind/name is a key of
the map ParseDisabledResources built, and the lookup is literal string
comparison: any kind/name pair whose concatenation is not itself a key,
in particular one differing from a listed entry only in letter case, is
not excluded. -/
theorem isResourceExcluded_spec (kind name annotation : GoString) :
    (IsResourceExcluded kind name (ParseDisabledResources annotation) = true ↔
      (kind ++ gs "/" ++ name) ∈ ParseDisabledResources annotation) ∧
    (∀ kind2 name2 : GoString,
      (kind2 ++ gs "/" ++ name2) ∉ ParseDisabledResources annotation →
      IsResourceExcluded kind2 name2 (ParseDisabledResources annotation) = false) := by
  constructor
  · unfold IsResourceExcluded
    by_cases h : (ParseDisabledResources annotation).isEmpty
    · simp [h, List.isEmpty_iff.mp h]
    · simp [h]
  · intro kind2 name2 hnot
    unfold IsResourceExcluded
    by_cases h : (ParseDisabledResources annotation).isEmpty
    · simp [h]
    · simp only [h, Bool.false_eq_true, if_false, decide_eq_false_iff_not]
      exact hnot

/-- C2 witness: case variants of the listed entry ConfigMap/test are not
excluded. -/
theorem isResourceExcluded_spec_witness :
    IsResourceExcluded (gs "configmap") (gs "test")
      (ParseDisabledResources (gs "ConfigMap/test")) = false ∧
    IsResourceExcluded (gs "ConfigMap") (gs "Test")
      (ParseDisabledResources (gs "ConfigMap/test")) = false :=
  ⟨(isResourceExcluded_spec (gs "configmap") (gs "test") (gs "ConfigMap/test")).2
      (gs "configmap") (gs "test") (by decide),
   (isResourceExcluded_spec (gs "ConfigMap") (gs "Test") (gs "ConfigMap/test")).2
      (gs "ConfigMap") (gs "Test") (by decide)⟩

/-- Map sensitiveKinds from pkg/overrides (validation): the resource
kinds on which JSON patches are blocked. Represented by the list of its
keys. -/
def sensitiveKinds : List GoString :=
  [gs "MachineConfig", gs "KubeletConfig",
   gs "ClusterRole", gs "ClusterRoleBinding", gs "Role", gs "RoleBinding",
   gs "ServiceAccount",
   gs "PodSecurityPolicy", gs "SecurityContextConstraints",
   gs "ValidatingWebhookConfiguration", gs "MutatingWebhookConfiguration"]

/-- Function ValidatePatchSecurity from pkg/overrides (validation): a
nil object is an error; on a sensitive kind the presence of the patch
annotation is an error; everything else passes. The Go error return is
modelled as Option GoString, none meaning the nil error. -/
def ValidatePatchSecurity (obj : Option Unstructured) : Option GoString :=
  match obj with
  | none => some (gs "object is nil")
  | some o =>
    if o.kind ∈ sensitiveKinds then
      match o.annotations with
      | some anns =>
        if (anns.lookup PatchAnnotation).isSome then
          some (gs "JSON patches are not allowed on sensitive resource kind: " ++ o.kind)
        else none
      | none => none
    else none

/-- C3: for a non-nil object, ValidatePatchSecurity errors exactly when
the kind is one of the eleven sensitive kinds and the patch annotation
is present; with no patch annotation it passes regardless of kind, so
objects carrying only the ignore-fields or mode annotation pass. -/
theorem validatePatchSecurity_spec (o : Unstructured) :
    (ValidatePatchSecurity (some o) ≠ none ↔
      (o.kind ∈ [gs "MachineConfig", gs "KubeletConfig",
        gs "ClusterRole", gs "ClusterRoleBinding", gs "Role", gs "RoleBinding",
        gs "ServiceAccount",
        gs "PodSecurityPolicy", gs "SecurityContextConstraints",
        gs "ValidatingWebhookConfiguration", gs "MutatingWebhookConfiguration"] ∧
       mapHasKey o.annotations PatchAnnotation = true)) ∧
    (mapHasKey o.annotations PatchAnnotation = false →
      ValidatePatchSecurity (some o) = none) := by
  have hkinds : sensitiveKinds =
      [gs "MachineConfig", gs "KubeletConfig",
        gs "ClusterRole", gs "ClusterRoleBinding", gs "Role", gs "RoleBinding",
        gs "ServiceAccount",
        gs "PodSecurityPolicy", gs "SecurityContextConstraints",
        gs "ValidatingWebhookConfiguration", gs "MutatingWebhookConfiguration"] := rfl
  constructor
  · rw [← hkinds]
    unfold ValidatePatchSecurity
    by_cases hk : o.kind ∈ sensitiveKinds
    · cases hAnn : o.annotations with
      | none => simp [hk, hAnn, mapHasKey, mapLookup]
      | some anns =>
        by_cases hp : (anns.lookup PatchAnnotation).isSome
        · simp [hk, hAnn, hp, mapHasKey, mapLookup]
        · simp [hk, hAnn, hp, mapHasKey, mapLookup]
    · simp [hk, mapHasKey, mapLookup]
  · intro hnp
    unfold ValidatePatchSecurity
    by_cases hk : o.kind ∈ sensitiveKinds
    · cases hAnn : o.annotations with
      | none => simp [hk, hAnn]
      | some anns =>
        have : (anns.lookup PatchAnnotation).isSome = false := by
          simpa [mapHasKey, mapLookup, hAnn] using hnp
        simp [hk, hAnn, this]
    · simp [hk]

/-- C3 witness: a MachineConfig carrying only the ignore-fields and mode
annotations (and no patch annotation) passes validation. -/
theorem validatePatchSecurity_spec_witness :
    ValidatePatchSecurity (some
      { kind := gs "MachineConfig", name := gs "50-swap-enable",
        annotations := some
          [(gs "platform.kubevirt.io/ignore-fields", gs "/spec/config"),
           (gs "platform.kubevirt.io/mode", gs "unmanaged")] }) = none :=
  (validatePatchSecurity_spec
    { kind := gs "MachineConfig", name := gs "50-swap-enable",
      annotations := some
        [(gs "platform.kubevirt.io/ignore-fields", gs "/spec/config"),
         (gs "platform.kubevirt.io/mode", gs "unmanaged")] }).2 (by decide)

/-- Outcome of the client.Get call in reconcileTombstone
(pkg/engine/tombstone.go): the live object, a NotFound error, or any
other error. -/
inductive GetResult where
  | found (live : Unstructured)
  | notFound
  | otherErr (e : GoString)
deriving DecidableEq

/-- The tombstone status metric values of pkg/observability as set by
reconcileTombstone. -/
inductive TombstoneStatus where
  | deleted
  | skipped
  | errored
deriving DecidableEq

/-- The tombstone events the reconciler can emit through the event
recorder. -/
inductive TombstoneEvent where
  | tombstoneDeleted
  | tombstoneSkipped
  | tombstoneFailed
deriving DecidableEq

/-- Struct TombstoneMetadata from pkg/assets (tombstone loader). The Go
GVK field is represented by the apiVersion and kind strings it is built
from; the Go field Namespace is called nspace. -/
structure TombstoneMetadata where
  path : GoString
  apiVersion : GoString
  kind : GoString
  nspace : GoString
  name : GoString
  object : Unstructured
deriving DecidableEq

/-- Observable outcome of reconcileTombstone: the returned pair
(deleted, error) plus the trace of cluster Delete calls, the tombstone
status metric written, and the events emitted (events are modelled as
what the recorder would receive when one is set). -/
structure ReconcileResult where
  deleted : Bool
  err : Option GoString
  deleteCalls : List Unstructured
  status : Option TombstoneStatus
  events : List TombstoneEvent
deriving DecidableEq

/-- Method reconcileTombstone of pkg/engine/tombstone.go. The outcome of
client.Get is the getRes argument; the outcome of client.Delete, were it
called, is the deleteErr argument (none meaning success). NotFound is an
idempotent success; a live object whose labels are nil or whose
managed-by label differs from the expected value is skipped without a
Delete call; otherwise the object is deleted. -/
def reconcileTombstone (getRes : GetResult) (deleteErr : Option GoString)
    (ts : TombstoneMetadata) : ReconcileResult :=
  match getRes with
  | GetResult.notFound =>
    { deleted := false, err := none, deleteCalls := [],
      status := some TombstoneStatus.deleted, events := [] }
  | GetResult.otherErr e =>
    { deleted := false, err := some (gs "failed to get resource: " ++ e),
      deleteCalls := [], status := some TombstoneStatus.errored,
      events := [TombstoneEvent.tombstoneFailed] }
  | GetResult.found live =>
    if live.labels = none ∨ mapGetD live.labels TombstoneLabel ≠ TombstoneLabelValue then
      { deleted := false, err := none, deleteCalls := [],
        status := some TombstoneStatus.skipped,
        events := [TombstoneEvent.tombstoneSkipped] }
    else
      match deleteErr with
      | some e =>
        { deleted := false, err := some (gs "failed to delete resource: " ++ e),
          deleteCalls := [live], status := some TombstoneStatus.errored,
          events := [TombstoneEvent.tombstoneFailed] }
      | none =>
        { deleted := true, err := none, deleteCalls := [live],
          status := some TombstoneStatus.deleted,
          events := [TombstoneEvent.tombstoneDeleted] }

/-- C1: when the live object exists but its labels do not map
platform.kubevirt.io/managed-by to virt-platform-autopilot (the key is
absent, the map is nil, or the value differs), reconcileTombstone issues
no Delete call and returns (false, nil): the status is Skipped and the
live object is never deleted. -/
theorem reconcileTombstone_label_mismatch_no_delete
    (live : Unstructured) (deleteErr : Option GoString) (ts : TombstoneMetadata)
    (h : mapLookup live.labels TombstoneLabel ≠ some TombstoneLabelValue) :
    (reconcileTombstone (GetResult.found live) deleteErr ts).deleteCalls = [] ∧
    (reconcileTombstone (GetResult.found live) deleteErr ts).deleted = false ∧
    (reconcileTombstone (GetResult.found live) deleteErr ts).err = none ∧
    (reconcileTombstone (GetResult.found live) deleteErr ts).status =
      some TombstoneStatus.skipped := by
  have hcond : live.labels = none ∨
      mapGetD live.labels TombstoneLabel ≠ TombstoneLabelValue := by
    cases hl : live.labels with
    | none => exact Or.inl rfl
    | some ls =>
      refine Or.inr ?_
      cases hk : ls.lookup TombstoneLabel with
      | none =>
        simp only [mapGetD, hl, hk, Option.getD_none]
        intro hEq
        have : TombstoneLabelValue ≠ ([] : GoString) := by decide
        exact this hEq.symm
      | some v =>
        simp only [mapGetD, hl, hk, Option.getD_some]
        intro hEq
        apply h
        simp [mapLookup, hl, hk, hEq]
  simp [reconcileTombstone, hcond]

/-- C1 witness: a live ConfigMap labelled managed-by=other is skipped
and not deleted. -/
theorem reconcileTombstone_label_mismatch_no_delete_witness :
    (reconcileTombstone
      (GetResult.found
        { kind := gs "ConfigMap", name := gs "x",
          labels := some [(gs "platform.kubevirt.io/managed-by", gs "other")] })
      none
      { path := gs "tombstones/x.yaml", apiVersion := gs "v1",
        kind := gs "ConfigMap", nspace := gs "default", name := gs "x",
        object := {} }).deleteCalls = [] :=
  (reconcileTombstone_label_mismatch_no_delete
    { kind := gs "ConfigMap", name := gs "x",
      labels := some [(gs "platform.kubevirt.io/managed-by", gs "other")] }
    none
    { path := gs "tombstones/x.yaml", apiVersion := gs "v1",
      kind := gs "ConfigMap", nspace := gs "default", name := gs "x",
      object := {} }
    (by decide)).1

/-- C8: when the fetch reports NotFound, reconcileTombstone records the
Deleted status, issues no Delete call, and returns (false, nil) without
error, whatever the tombstone and whatever a Delete would have
returned. -/
theorem reconcileTombstone_notFound_idempotent
    (deleteErr : Option GoString) (ts : TombstoneMetadata) :
    (reconcileTombstone GetResult.notFound deleteErr ts).status =
      some TombstoneStatus.deleted ∧
    (reconcileTombstone GetResult.notFound deleteErr ts).deleteCalls = [] ∧
    (reconcileTombstone GetResult.notFound deleteErr ts).err = none := by
  simp [reconcileTombstone]

/-- The for-loop body of ReconcileTombstones (pkg/engine/tombstone.go):
process each tombstone in order; a failing tombstone contributes its
error and processing continues; a deleted tombstone bumps the counter.
The env argument supplies, per tombstone, the cluster Get outcome and
the Delete outcome used by reconcileTombstone. -/
def reconcileList (env : TombstoneMetadata → GetResult × Option GoString) :
    List TombstoneMetadata → Nat × List GoString
  | [] => (0, [])
  | ts :: rest =>
    let r := reconcileTombstone (env ts).1 (env ts).2 ts
    let acc := reconcileList env rest
    match r.err with
    | some e => (acc.1, e :: acc.2)
    | none => (if r.deleted then acc.1 + 1 else acc.1, acc.2)

/-- Method ReconcileTombstones of pkg/engine/tombstone.go. The loader
outcome is the loadRes argument. A load failure is returned at once; an
empty tombstone list is a silent success; otherwise every tombstone is
processed and the individual errors, if any, are returned aggregated
(Go wraps them into a single error naming their count; the aggregate is
modelled by the list itself). -/
def ReconcileTombstones (loadRes : Except GoString (List TombstoneMetadata))
    (env : TombstoneMetadata → GetResult × Option GoString) :
    Nat × Option (List GoString) :=
  match loadRes with
  | Except.error e => (0, some [gs "failed to load tombstones: " ++ e])
  | Except.ok tombstones =>
    if tombstones.isEmpty then (0, none)
    else
      let acc := reconcileList env tombstones
      (acc.1, if acc.2.isEmpty then none else some acc.2)

/-- reconcileTombstone never reports success and failure at once: a
deleted result carries no error. -/
theorem reconcileTombstone_deleted_no_err (g : GetResult) (d : Option GoString)
    (ts : TombstoneMetadata) :
    (reconcileTombstone g d ts).deleted = true → (reconcileTombstone g d ts).err = none := by
  cases g with
  | notFound => simp [reconcileTombstone]
  | otherErr e => simp [reconcileTombstone]
  | found live =>
    by_cases hc : live.labels = none ∨ mapGetD live.labels TombstoneLabel ≠ TombstoneLabelValue
    · simp [reconcileTombstone, hc]
    · cases d with
      | some e => simp [reconcileTombstone, hc]
      | none => simp [reconcileTombstone, hc]

/-- The counting and error-collecting behaviour of the tombstone loop. -/
theorem reconcileList_spec (env : TombstoneMetadata → GetResult × Option GoString)
    (l : List TombstoneMetadata) :
    (reconcileList env l).1 =
      (l.filter (fun ts => (reconcileTombstone (env ts).1 (env ts).2 ts).deleted)).length ∧
    ((reconcileList env l).2 = [] ↔
      ∀ ts ∈ l, (reconcileTombstone (env ts).1 (env ts).2 ts).err = none) := by
  induction l with
  | nil => simp [reconcileList]
  | cons ts rest ih =>
    cases hErr : (reconcileTombstone (env ts).1 (env ts).2 ts).err with
    | some e =>
      have hdel : (reconcileTombstone (env ts).1 (env ts).2 ts).deleted = false := by
        by_contra hne
        have := reconcileTombstone_deleted_no_err (env ts).1 (env ts).2 ts
          (by revert hne; cases (reconcileTombstone (env ts).1 (env ts).2 ts).deleted <;> simp)
        rw [this] at hErr
        exact Option.noConfusion hErr
      constructor
      · simp [reconcileList, hErr, hdel, ih.1]
      · simp [reconcileList, hErr, hdel]
    | none =>
      constructor
      · cases hdel : (reconcileTombstone (env ts).1 (env ts).2 ts).deleted
        · simp [reconcileList, hErr, hdel, ih.1]
        · simp [reconcileList, hErr, hdel, ih.1]
      · simp [reconcileList, hErr, ih.2]

/-- C9: ReconcileTombstones is best-effort. A failure on one tombstone
does not stop the loop: the returned count is the number of tombstones
whose individual reconciliation deleted the resource, wherever in the
list the failures fall, and the returned error is nil exactly when no
individual tombstone failed (otherwise the individual errors are
returned aggregated). -/
theorem reconcileTombstones_best_effort
    (env : TombstoneMetadata → GetResult × Option GoString)
    (l : List TombstoneMetadata) :
    (ReconcileTombstones (Except.ok l) env).1 =
      (l.filter (fun ts => (reconcileTombstone (env ts).1 (env ts).2 ts).deleted)).length ∧
    ((ReconcileTombstones (Except.ok l) env).2 = none ↔
      ∀ ts ∈ l, (reconcileTombstone (env ts).1 (env ts).2 ts).err = none) := by
  cases l with
  | nil => simp [ReconcileTombstones]
  | cons ts rest =>
    have hspec := reconcileList_spec env (ts :: rest)
    constructor
    · simpa [ReconcileTombstones] using hspec.1
    · rw [← hspec.2]
      simp [ReconcileTombstones]

/-- Function validateTombstone from pkg/assets (tombstone loader):
kind, apiVersion and metadata.name must be non-empty and the labels map
must carry the managed-by label with the expected value. The Go error
return is modelled as Option GoString, none meaning the nil error. -/
def validateTombstone (obj : Unstructured) (path : GoString) : Option GoString :=
  if obj.kind = [] then
    some (gs "tombstone " ++ path ++ gs " missing required field: kind")
  else if obj.apiVersion = [] then
    some (gs "tombstone " ++ path ++ gs " missing required field: apiVersion")
  else if obj.name = [] then
    some (gs "tombstone " ++ path ++ gs " missing required field: metadata.name")
  else
    match obj.labels with
    | none =>
      some (gs "tombstone " ++ path ++ gs " missing required label (safety check)")
    | some ls =>
      if (ls.lookup TombstoneLabel).getD [] ≠ TombstoneLabelValue then
        some (gs "tombstone " ++ path ++ gs " has incorrect label value (safety check)")
      else none

/-- A tombstone file after the filesystem walk and the YAML parse of
LoadTombstones: its path and the objects parsed from it. The embedded
filesystem walk and ParseMultiYAML call are the boundary of this model;
LoadTombstones is embedded from the per-object processing loop on. -/
structure TombstoneFile where
  path : GoString
  objects : List Unstructured
deriving DecidableEq

/-- The per-file object loop of LoadTombstones (pkg/assets): validate
each parsed object, abort on the first validation error, and otherwise
extract a TombstoneMetadata per object. -/
def processFileObjects (path : GoString) :
    List Unstructured → Except GoString (List TombstoneMetadata)
  | [] => Except.ok []
  | o :: os =>
    match validateTombstone o path with
    | some e => Except.error e
    | none =>
      match processFileObjects path os with
      | Except.error e => Except.error e
      | Except.ok ts =>
        Except.ok ({ path := path, apiVersion := o.apiVersion, kind := o.kind,
                     nspace := o.nspace, name := o.name, object := o } :: ts)

/-- Method LoadTombstones of pkg/assets over the parsed tombstone
files: process the files in walk order, abort on the first error
(wrapped once, as by the failed-to-load wrapper at the end of the Go
function), and concatenate the extracted metadata. -/
def LoadTombstones : List TombstoneFile → Except GoString (List TombstoneMetadata)
  | [] => Except.ok []
  | f :: fs =>
    match processFileObjects f.path f.objects with
    | Except.error e => Except.error (gs "failed to load tombstones: " ++ e)
    | Except.ok ts =>
      match LoadTombstones fs with
      | Except.error e => Except.error e
      | Except.ok rest => Except.ok (ts ++ rest)

/-- Every metadata entry produced by the per-file loop comes from an
object that passed validation, and carries that object and path. -/
theorem processFileObjects_valid (path : GoString) (os : List Unstructured)
    (l : List TombstoneMetadata) (h : processFileObjects path os = Except.ok l) :
    ∀ ts ∈ l, validateTombstone ts.object ts.path = none := by
  induction os generalizing l with
  | nil =>
    simp [processFileObjects] at h
    subst h
    intro ts hts
    simp at hts
  | cons o os ih =>
    cases hv : validateTombstone o path with
    | some e => simp [processFileObjects, hv] at h
    | none =>
      cases hrec : processFileObjects path os with
      | error e => simp [processFileObjects, hv, hrec] at h
      | ok ts =>
        simp [processFileObjects, hv, hrec] at h
        intro x hx
        rw [← h] at hx
        rcases List.mem_cons.mp hx with hx | hx
        · rw [hx]; exact hv
        · exact ih ts hrec x hx

/-- C7: validateTombstone accepts a declaration exactly when kind,
apiVersion and metadata.name are non-empty and the labels map holds
platform.kubevirt.io/managed-by with the value virt-platform-autopilot;
any missing field or differing label value yields an error, and
LoadTombstones propagates such errors, so every TombstoneMetadata it
returns comes from a declaration that passed validation. -/
theorem validateTombstone_spec (obj : Unstructured) (path : GoString)
    (files : List TombstoneFile) :
    (validateTombstone obj path = none ↔
      obj.kind ≠ [] ∧ obj.apiVersion ≠ [] ∧ obj.name ≠ [] ∧
      mapLookup obj.labels TombstoneLabel = some TombstoneLabelValue) ∧
    (∀ l, LoadTombstones files = Except.ok l →
      ∀ ts ∈ l, validateTombstone ts.object ts.path = none) := by
  constructor
  · constructor
    · intro h
      by_cases hk : obj.kind = []
      · simp [validateTombstone, hk] at h
      by_cases ha : obj.apiVersion = []
      · simp [validateTombstone, hk, ha] at h
      by_cases hn : obj.name = []
      · simp [validateTombstone, hk, ha, hn] at h
      refine ⟨hk, ha, hn, ?_⟩
      cases hl : obj.labels with
      | none => simp [validateTombstone, hk, ha, hn, hl] at h
      | some ls =>
        cases hlk : ls.lookup TombstoneLabel with
        | none =>
          exfalso
          have hne : ((ls.lookup TombstoneLabel).getD [] ≠ TombstoneLabelValue) := by
            rw [hlk]
            intro hEq
            exact (by decide : TombstoneLabelValue ≠ ([] : GoString)) hEq.symm
          simp [validateTombstone, hk, ha, hn, hl, hne] at h
        | some v =>
          have : v = TombstoneLabelValue := by
            by_contra hne
            have hne2 : ((ls.lookup TombstoneLabel).getD [] ≠ TombstoneLabelValue) := by
              rw [hlk]; simpa using hne
            simp [validateTombstone, hk, ha, hn, hl, hne2] at h
          simp [mapLookup, hl, hlk, this]
    · rintro ⟨hk, ha, hn, hlbl⟩
      cases hl : obj.labels with
      | none => rw [hl] at hlbl; simp [mapLookup] at hlbl
      | some ls =>
        rw [hl] at hlbl
        simp only [mapLookup] at hlbl
        have hgd : (ls.lookup TombstoneLabel).getD [] = TombstoneLabelValue := by
          rw [hlbl]; rfl
        simp [validateTombstone, hk, ha, hn, hl, hgd]
  · intro l h
    induction files generalizing l with
    | nil =>
      simp [LoadTombstones] at h
      subst h
      intro ts hts
      simp at hts
    | cons f fs ih =>
      cases hf : processFileObjects f.path f.objects with
      | error e => simp [LoadTombstones, hf] at h
      | ok ts =>
        cases hrec : LoadTombstones fs with
        | error e => simp [LoadTombstones, hf, hrec] at h
        | ok rest =>
          simp [LoadTombstones, hf, hrec] at h
          intro x hx
          rw [← h] at hx
          rcases List.mem_append.mp hx with hx | hx
          · exact processFileObjects_valid f.path f.objects ts hf x hx
          · exact ih rest hrec x hx

/-- C7 witness: a file with one fully-specified, correctly-labelled
declaration loads, and the loaded entry passed validation. -/
theorem validateTombstone_spec_witness :
    validateTombstone
      { apiVersion := gs "v1", kind := gs "ConfigMap", name := gs "test-config",
        labels := some [(gs "platform.kubevirt.io/managed-by", gs "virt-platform-autopilot")] }
      (gs "tombstones/test.yaml") = none :=
  (validateTombstone_spec
    { apiVersion := gs "v1", kind := gs "ConfigMap", name := gs "test-config",
      labels := some [(gs "platform.kubevirt.io/managed-by", gs "virt-platform-autopilot")] }
    (gs "tombstones/test.yaml")
    [{ path := gs "tombstones/test.yaml",
       objects := [{ apiVersion := gs "v1", kind := gs "ConfigMap",
                     name := gs "test-config",
                     labels := some [(gs "platform.kubevirt.io/managed-by",
                                      gs "virt-platform-autopilot")] }] }]).2
    [{ path := gs "tombstones/test.yaml", apiVersion := gs "v1", kind := gs "ConfigMap",
       nspace := [], name := gs "test-config",
       object := { apiVersion := gs "v1", kind := gs "ConfigMap",
                   name := gs "test-config",
                   labels := some [(gs "platform.kubevirt.io/managed-by",
                                    gs "virt-platform-autopilot")] } }]
    rfl
    { path := gs "tombstones/test.yaml", apiVersion := gs "v1", kind := gs "ConfigMap",
      nspace := [], name := gs "test-config",
      object := { apiVersion := gs "v1", kind := gs "ConfigMap",
                  name := gs "test-config",
                  labels := some [(gs "platform.kubevirt.io/managed-by",
                                   gs "virt-platform-autopilot")] } }
    (by decide)

/-- The condition type of the asset catalog (pkg/assets). Go represents
it as an open string type with three recognized constants
(ConditionTypeAnnotation, ConditionTypeFeatureGate,
ConditionTypeHardwareDetection); unrecognized values are other. -/
inductive ConditionType where
  | annotationType
  | featureGateType
  | hardwareDetectionType
  | otherType (s : GoString)
deriving DecidableEq

/-- Struct AssetCondition from pkg/assets (the fields of one catalog
condition). -/
structure AssetCondition where
  condType : ConditionType
  key : GoString := []
  value : GoString := []
  detector : GoString := []
deriving DecidableEq

/-- Struct AssetMetadata from pkg/assets, restricted to the fields the
embedded functions consult (phase, install mode and reconcile order are
not read by CheckConditions). -/
structure AssetMetadata where
  name : GoString := []
  path : GoString := []
  component : GoString := []
  conditions : List AssetCondition := []
deriving DecidableEq

/-- Struct RenderContext from pkg/context, restricted to the HCO field,
the only one CheckConditions reads. -/
structure RenderContext where
  hco : Unstructured
deriving DecidableEq

/-- The feature-gates annotation key read by the featureGate case of
CheckConditions (pkg/render/output.go). -/
def featureGatesKey : GoString := gs "platform.kubevirt.io/feature-gates"

/-- Models strings.Contains(hay, needle). -/
def goContains (hay needle : GoString) : Bool := decide (needle <:+: hay)

/-- The for-loop of CheckConditions (pkg/render/output.go), returning
false at the first failing condition: an annotation condition fails when
the HCO annotation at the key differs from the value (a nil map or an
absent key reads as the empty string); a featureGate condition fails
when the value is not a substring of the feature-gates annotation; a
hardwareDetection condition always fails here (no node access); an
unrecognized type is passed over by the switch. -/
def checkConditionsLoop (renderCtx : RenderContext) :
    List AssetCondition → Bool
  | [] => true
  | c :: rest =>
    match c.condType with
    | ConditionType.annotationType =>
      if mapGetD renderCtx.hco.annotations c.key ≠ c.value then false
      else checkConditionsLoop renderCtx rest
    | ConditionType.featureGateType =>
      if !goContains (mapGetD renderCtx.hco.annotations featureGatesKey) c.value then false
      else checkConditionsLoop renderCtx rest
    | ConditionType.hardwareDetectionType => false
    | ConditionType.otherType _ => checkConditionsLoop renderCtx rest

/-- Function CheckConditions from pkg/render/output.go: an empty
condition list is always satisfied, otherwise run the loop. -/
def CheckConditions (assetMeta : AssetMetadata) (renderCtx : RenderContext) : Bool :=
  if assetMeta.conditions.isEmpty then true
  else checkConditionsLoop renderCtx assetMeta.conditions

/-- Satisfaction of one condition, read off the branches of the
CheckConditions switch, for stating the AND-combination. -/
def conditionSatisfied (c : AssetCondition) (renderCtx : RenderContext) : Bool :=
  match c.condType with
  | ConditionType.annotationType =>
    decide (mapGetD renderCtx.hco.annotations c.key = c.value)
  | ConditionType.featureGateType =>
    goContains (mapGetD renderCtx.hco.annotations featureGatesKey) c.value
  | ConditionType.hardwareDetectionType => false
  | ConditionType.otherType _ => true

/-- The loop is the conjunction of the individual conditions. -/
theorem checkConditionsLoop_all (renderCtx : RenderContext)
    (l : List AssetCondition) :
    checkConditionsLoop renderCtx l = l.all (fun c => conditionSatisfied c renderCtx) := by
  induction l with
  | nil => simp [checkConditionsLoop]
  | cons c rest ih =>
    cases hc : c.condType with
    | annotationType =>
      by_cases hv : mapGetD renderCtx.hco.annotations c.key = c.value
      · simp [checkConditionsLoop, conditionSatisfied, hc, hv, ih]
      · simp [checkConditionsLoop, conditionSatisfied, hc, hv]
    | featureGateType =>
      by_cases hv : goContains (mapGetD renderCtx.hco.annotations featureGatesKey) c.value = true
      · simp [checkConditionsLoop, conditionSatisfied, hc, hv, ih]
      · simp [checkConditionsLoop, conditionSatisfied, hc, hv]
    | hardwareDetectionType => simp [checkConditionsLoop, conditionSatisfied, hc]
    | otherType s => simp [checkConditionsLoop, conditionSatisfied, hc, ih]

/-- C5: CheckConditions is true on an empty condition list, and
otherwise true exactly when every condition of the asset is individually
satisfied: the conditions are AND-combined and one unsatisfied condition
makes the result false. -/
theorem checkConditions_and_semantics (assetMeta : AssetMetadata)
    (renderCtx : RenderContext) :
    (assetMeta.conditions = [] → CheckConditions assetMeta renderCtx = true) ∧
    (CheckConditions assetMeta renderCtx = true ↔
      ∀ c ∈ assetMeta.conditions, conditionSatisfied c renderCtx = true) := by
  constructor
  · intro h
    simp [CheckConditions, h]
  · cases hl : assetMeta.conditions with
    | nil => simp [CheckConditions, hl]
    | cons c rest =>
      rw [CheckConditions, hl]
      simp only [List.isEmpty_cons, if_false, Bool.false_eq_true]
      rw [checkConditionsLoop_all]
      simp [List.all_eq_true]

/-- C5 witness: the empty condition list is satisfied, and a list with
one failing condition is not. -/
theorem checkConditions_and_semantics_witness :
    CheckConditions { name := gs "a" } { hco := {} } = true ∧
    ¬ (∀ c ∈ [{ condType := ConditionType.hardwareDetectionType : AssetCondition }],
        conditionSatisfied c { hco := ({} : Unstructured) } = true) :=
  ⟨(checkConditions_and_semantics { name := gs "a" } { hco := {} }).1 rfl,
   fun hall =>
     by simpa [conditionSatisfied] using
       hall { condType := ConditionType.hardwareDetectionType } (by simp)⟩

/-- C6: evaluation of CheckConditions at the disputed input. An
annotation condition with the empty value against an HCO whose
annotation at the key is present with the value anything: the code
compares the annotation to the empty value literally and reports the
condition unsatisfied, whereas the claim (and the condition evaluator of
pkg/assets, whose existence-check test expects satisfied) calls for
presence of the key to satisfy an empty-valued condition. -/
theorem checkConditions_empty_value_presence_check :
    CheckConditions
      { name := gs "conditional-asset",
        conditions := [{ condType := ConditionType.annotationType,
                         key := gs "platform.kubevirt.io/enable-gpu",
                         value := [] }] }
      { hco := { annotations :=
                   some [(gs "platform.kubevirt.io/enable-gpu",
                          gs "anything")] } } = false := by
  decide

/-- Constant MaxYAMLSize from pkg/assets (loader): 10 MiB. -/
def MaxYAMLSize : Nat := 10 * 1024 * 1024

/-- Constant MaxYAMLDepth from pkg/assets (loader). -/
def MaxYAMLDepth : Nat := 100

/-- A parsed YAML structure as traversed by calculateDepth
(pkg/assets): the Go interface value is a string-keyed map, an array,
or any other (scalar) value. -/
inductive YVal where
  | map (entries : List (GoString × YVal))
  | arr (items : List YVal)
  | prim

mutual
/-- Function calculateDepth from pkg/assets (loader): maps and arrays
are one deeper than their deepest child, everything else has depth 1. -/
def calculateDepth : YVal → Nat
  | YVal.map entries => 1 + maxDepthEntries entries
  | YVal.arr items => 1 + maxDepthItems items
  | YVal.prim => 1
/-- The maxDepth loop of calculateDepth over the values of a map. -/
def maxDepthEntries : List (GoString × YVal) → Nat
  | [] => 0
  | e :: es => max (calculateDepth e.2) (maxDepthEntries es)
/-- The maxDepth loop of calculateDepth over the items of an array. -/
def maxDepthItems : List YVal → Nat
  | [] => 0
  | v :: vs => max (calculateDepth v) (maxDepthItems vs)
end

/-- Function ParseYAML from pkg/assets (loader). The yaml.Unmarshal
call is the unmarshal oracle argument; ParseYAML rejects input longer
than MaxYAMLSize before parsing, and rejects a parsed structure deeper
than MaxYAMLDepth after parsing. The input length models len(data) in
bytes. -/
def ParseYAML (unmarshal : GoString → Except GoString YVal)
    (data : GoString) : Except GoString YVal :=
  if data.length > MaxYAMLSize then
    Except.error (gs "YAML content exceeds maximum size")
  else
    match unmarshal data with
    | Except.error e => Except.error (gs "failed to parse YAML: " ++ e)
    | Except.ok obj =>
      if calculateDepth obj > MaxYAMLDepth then
        Except.error (gs "YAML structure exceeds maximum nesting depth")
      else Except.ok obj

/-- Models strings.Split(s, sep) for the document separator of
ParseMultiYAML; sep is a non-empty string, so each step consumes at
least one character and the input length is enough fuel. -/
def splitOnSepAux (sep : GoString) : Nat → GoString → GoString → List GoString
  | _, [], acc => [acc.reverse]
  | 0, rest, acc => [acc.reverse ++ rest]
  | fuel + 1, c :: cs, acc =>
    if sep.isPrefixOf (c :: cs) then
      acc.reverse :: splitOnSepAux sep fuel (List.drop sep.length (c :: cs)) []
    else splitOnSepAux sep fuel cs (c :: acc)

/-- Models strings.Split(s, sep) for a non-empty separator. -/
def splitOnSep (sep s : GoString) : List GoString :=
  splitOnSepAux sep s.length s []

/-- The per-document loop of ParseMultiYAML (pkg/assets): trim each
document, skip empty ones, parse the rest through ParseYAML, stop at
the first failure, and collect the parsed objects in order. -/
def parseDocsLoop (unmarshal : GoString → Except GoString YVal) :
    List GoString → Except GoString (List YVal)
  | [] => Except.ok []
  | d :: ds =>
    let doc := goTrim d
    if doc = [] then parseDocsLoop unmarshal ds
    else
      match ParseYAML unmarshal doc with
      | Except.error e => Except.error (gs "failed to parse document: " ++ e)
      | Except.ok obj =>
        match parseDocsLoop unmarshal ds with
        | Except.error e => Except.error e
        | Except.ok objs => Except.ok (obj :: objs)

/-- Function ParseMultiYAML from pkg/assets (loader): reject input
longer than MaxYAMLSize, split on the document separator, and parse
each non-empty document through ParseYAML. -/
def ParseMultiYAML (unmarshal : GoString → Except GoString YVal)
    (data : GoString) : Except GoString (List YVal) :=
  if data.length > MaxYAMLSize then
    Except.error (gs "YAML content exceeds maximum size")
  else parseDocsLoop unmarshal (splitOnSep (gs "\n---\n") data)

/-- Inversion of a successful ParseYAML: the input was within the size
bound, the oracle produced the object, and the object is within the
depth bound. -/
theorem parseYAML_ok_inv (unmarshal : GoString → Except GoString YVal)
    (data : GoString) (v : YVal) (h : ParseYAML unmarshal data = Except.ok v) :
    data.length ≤ MaxYAMLSize ∧ unmarshal data = Except.ok v ∧
    calculateDepth v ≤ MaxYAMLDepth := by
  by_cases hsz : data.length > MaxYAMLSize
  · simp [ParseYAML, hsz] at h
  · cases hu : unmarshal data with
    | error e => simp [ParseYAML, hsz, hu] at h
    | ok obj =>
      by_cases hd : calculateDepth obj > MaxYAMLDepth
      · simp [ParseYAML, hsz, hu, hd] at h
      · simp [ParseYAML, hsz, hu, hd] at h
        subst h
        exact ⟨by omega, rfl, by omega⟩

/-- Every object the document loop returns went through ParseYAML, so
it respects the depth bound. -/
theorem parseDocsLoop_depth (unmarshal : GoString → Except GoString YVal)
    (docs : List GoString) (objs : List YVal)
    (h : parseDocsLoop unmarshal docs = Except.ok objs) :
    ∀ v ∈ objs, calculateDepth v ≤ MaxYAMLDepth := by
  induction docs generalizing objs with
  | nil =>
    simp [parseDocsLoop] at h
    subst h
    intro v hv
    simp at hv
  | cons d ds ih =>
    by_cases hskip : goTrim d = []
    · rw [parseDocsLoop, if_pos hskip] at h
      exact ih objs h
    · cases hp : ParseYAML unmarshal (goTrim d) with
      | error e => simp [parseDocsLoop, hskip, hp] at h
      | ok obj =>
        cases hrec : parseDocsLoop unmarshal ds with
        | error e => simp [parseDocsLoop, hskip, hp, hrec] at h
        | ok objs2 =>
          simp [parseDocsLoop, hskip, hp, hrec] at h
          subst h
          intro v hv
          rcases List.mem_cons.mp hv with hv | hv
          · subst hv
            exact (parseYAML_ok_inv unmarshal (goTrim d) v hp).2.2
          · exact ih objs2 hrec v hv

/-- C10: the two parsers are total guards on size and depth. Input
longer than MaxYAMLSize = 10485760 is rejected by both with an error
and no object; a parse whose structure is deeper than MaxYAMLDepth =
100 is rejected by ParseYAML; hence any object either parser returns
came from input within the size bound and respects the depth bound. -/
theorem parseYAML_guards (unmarshal : GoString → Except GoString YVal)
    (data : GoString) :
    (data.length > 10485760 →
      (∃ e, ParseYAML unmarshal data = Except.error e) ∧
      (∃ e, ParseMultiYAML unmarshal data = Except.error e)) ∧
    (∀ v, unmarshal data = Except.ok v → calculateDepth v > 100 →
      ∃ e, ParseYAML unmarshal data = Except.error e) ∧
    (∀ v, ParseYAML unmarshal data = Except.ok v →
      data.length ≤ 10485760 ∧ calculateDepth v ≤ 100) ∧
    (∀ objs, ParseMultiYAML unmarshal data = Except.ok objs →
      data.length ≤ 10485760 ∧ ∀ v ∈ objs, calculateDepth v ≤ 100) := by
  have hmax : MaxYAMLSize = 10485760 := by norm_num [MaxYAMLSize]
  have hdep : MaxYAMLDepth = 100 := rfl
  refine ⟨?_, ?_, ?_, ?_⟩
  · intro hbig
    have hsz : data.length > MaxYAMLSize := by omega
    exact ⟨⟨gs "YAML content exceeds maximum size", by simp [ParseYAML, hsz]⟩,
           ⟨gs "YAML content exceeds maximum size", by simp [ParseMultiYAML, hsz]⟩⟩
  · intro v hu hdeep
    by_cases hsz : data.length > MaxYAMLSize
    · exact ⟨gs "YAML content exceeds maximum size", by simp [ParseYAML, hsz]⟩
    · have hd : calculateDepth v > MaxYAMLDepth := by omega
      exact ⟨gs "YAML structure exceeds maximum nesting depth",
             by simp [ParseYAML, hsz, hu, hd]⟩
  · intro v h
    obtain ⟨h1, _, h3⟩ := parseYAML_ok_inv unmarshal data v h
    exact ⟨by omega, by omega⟩
  · intro objs h
    by_cases hsz : data.length > MaxYAMLSize
    · simp [ParseMultiYAML, hsz] at h
    · simp [ParseMultiYAML, hsz] at h
      refine ⟨by omega, ?_⟩
      intro v hv
      have := parseDocsLoop_depth unmarshal (splitOnSep (gs "\n---\n") data) objs h v hv
      omega

/-- C10 witness: an input of 10485761 characters is rejected by both
parsers, and an accepted one-document parse is within both bounds. -/
theorem parseYAML_guards_witness :
    (∃ e, ParseYAML (fun _ => Except.ok YVal.prim)
      (List.replicate 10485761 'a') = Except.error e) ∧
    (∃ e, ParseMultiYAML (fun _ => Except.ok YVal.prim)
      (List.replicate 10485761 'a') = Except.error e) ∧
    ((gs "a").length ≤ 10485760 ∧ calculateDepth YVal.prim ≤ 100) :=
  ⟨((parseYAML_guards (fun _ => Except.ok YVal.prim)
      (List.replicate 10485761 'a')).1
      (by rw [List.length_replicate]; norm_num)).1,
   ((parseYAML_guards (fun _ => Except.ok YVal.prim)
      (List.replicate 10485761 'a')).1
      (by rw [List.length_replicate]; norm_num)).2,
   (parseYAML_guards (fun _ => Except.ok YVal.prim) (gs "a")).2.2.1
     YVal.prim (by rfl)⟩

/-- C4 witness: an HCO annotated autopilot=true enables the engine. -/
theorem isAutopilotEnabled_spec_witness :
    IsAutopilotEnabled
      (some { annotations :=
                some [(gs "platform.kubevirt.io/autopilot", gs "true")] }) = true :=
  (isAutopilotEnabled_spec
    (some { annotations :=
              some [(gs "platform.kubevirt.io/autopilot", gs "true")] })).mpr
    ⟨{ annotations := some [(gs "platform.kubevirt.io/autopilot", gs "true")] },
     [(gs "platform.kubevirt.io/autopilot", gs "true")], rfl, rfl, by decide⟩

/-- C8 witness: a NotFound fetch for a concrete tombstone records the
Deleted status. -/
theorem reconcileTombstone_notFound_idempotent_witness :
    (reconcileTombstone GetResult.notFound none
      { path := gs "tombstones/x.yaml", apiVersion := gs "v1", kind := gs "ConfigMap",
        nspace := [], name := gs "x", object := {} }).status =
      some TombstoneStatus.deleted :=
  (reconcileTombstone_notFound_idempotent none
    { path := gs "tombstones/x.yaml", apiVersion := gs "v1", kind := gs "ConfigMap",
      nspace := [], name := gs "x", object := {} }).1

/-- C9 witness: with no tombstones the batch deletes nothing and
returns no error. -/
theorem reconcileTombstones_best_effort_witness :
    (ReconcileTombstones (Except.ok ([] : List TombstoneMetadata))
      (fun _ => (GetResult.notFound, none))).1 = 0 := by
  have h := reconcileTombstones_best_effort (fun _ => (GetResult.notFound, none)) []
  simpa using h.1
